import Mathlib

/-!
Verification of the core logic of the `claude-code-plugin-shopify` repository:
the bounded cursor-pagination aggregator (`getAllOrders` in
`src/agents/shopify-order-manager.md`, the embedded `mcp-client.ts`), the
mutation wrappers that invalidate the cache after a successful remote call,
and the read-through cache contract of the `@local/plugin-cache` package
(whose implementation is not among the sources of this repository and is
therefore modelled from the specification).
-/

namespace ShopifyPlugin

/-! ## Pagination aggregator (from `getAllOrders` in the mcp-client source)

The JavaScript loop is:

```
while (hasNextPage && pageCount < maxPages) {
  const result = await this.getOrders({ ..., after: cursor });
  if (Array.isArray(result)) {
    allOrders.push(...result); hasNextPage = false;
  } else if (result.orders) {
    allOrders.push(...result.orders);
    hasNextPage = result.pageInfo?.hasNextPage ?? false;
    cursor = result.pageInfo?.endCursor;
  } else {
    allOrders.push(result); hasNextPage = false;
  }
  pageCount++;
}
return { orders: allOrders, totalFetched: allOrders.length, hasMore: hasNextPage };
```

The page fetch is embedded as a function from the cursor to an
`Except`-value: an `.error` models a thrown exception from `getOrders`
(which the `await` re-raises, aborting the whole aggregation), an `.ok`
carries one of the three response shapes the loop distinguishes.
-/

/-- Pagination metadata of one fetched page (`result.pageInfo`); both fields
are optional exactly as in the JavaScript (`?.` / `??` accesses). -/
structure PageInfo where
  hasNextPage : Option Bool
  endCursor : Option String
  deriving DecidableEq

/-- The three response shapes `getAllOrders` distinguishes: a bare array,
an object carrying an `orders` field (with optional `pageInfo`), and any
other value. -/
inductive FetchResult (α : Type) where
  | array (items : List α)
  | obj (orders : List α) (pageInfo : Option PageInfo)
  | other (value : α)
  deriving DecidableEq

/-- The record returned by `getAllOrders`:
`{ orders, totalFetched, hasMore }`. -/
structure AggResult (α : Type) where
  orders : List α
  totalFetched : Nat
  hasMore : Bool
  deriving DecidableEq

/-- Output of the instrumented pagination loop: the result the code
produces (`result`), plus two ghost observations used only to state
properties — the number of page-fetch invocations (`pages`, the value
that `pageCount` has at the end when no error occurs) and the
`hasNextPage` value computed from the last fetched page, `none` when no
page was fetched (`lastReported`). -/
structure LoopOut (ε α : Type) where
  result : Except ε (List α × Bool)
  pages : Nat
  lastReported : Option Bool

/-- One iteration body of the `getAllOrders` loop: given the current
cursor and the fetched response, return the items appended on this
iteration, the new `hasNextPage`, and the new cursor (the cursor variable
is only assigned in the `result.orders` branch, mirroring the source). -/
def processPage (cursor : Option String) : FetchResult α → List α × Bool × Option String
  | .array items => (items, false, cursor)
  | .obj orders pinfo =>
      (orders, (pinfo.bind PageInfo.hasNextPage).getD false, pinfo.bind PageInfo.endCursor)
  | .other v => ([v], false, cursor)

/-- The `getAllOrders` while-loop. The fuel argument is the number of
remaining iterations allowed by the `pageCount < maxPages` guard (the
guard decreases by exactly one per iteration, so fuel recursion is the
loop). At fuel `0` the guard fails and the loop returns with the current
`hasNextPage` (which is `true`, since the loop only continues while it is
`true` and it starts `true`). A fetch `.error` aborts the whole loop,
discarding the accumulator, exactly as a thrown exception does in the
source. -/
def fetchPages (fetch : Option String → Except ε (FetchResult α)) :
    Nat → List α → Option String → LoopOut ε α
  | 0, acc, _ => ⟨.ok (acc, true), 0, none⟩
  | fuel + 1, acc, cursor =>
    match fetch cursor with
    | .error e => ⟨.error e, 1, none⟩
    | .ok r =>
      let step := processPage cursor r
      if step.2.1 then
        let rest := fetchPages fetch fuel (acc ++ step.1) step.2.2
        ⟨rest.result, rest.pages + 1, some (rest.lastReported.getD true)⟩
      else
        ⟨.ok (acc ++ step.1, false), 1, some false⟩

/-- `getAllOrders` with its instrumented loop output. `maxPagesOpt` models
the optional `options?.maxPages` argument with its `?? 10` default; the
initial state is an absent cursor, empty accumulator, `pageCount = 0`. -/
def getAllOrdersRun (fetch : Option String → Except ε (FetchResult α))
    (maxPagesOpt : Option Int) : LoopOut ε α :=
  fetchPages fetch (maxPagesOpt.getD 10).toNat [] none

/-- `getAllOrders` as the caller sees it: the aggregated
`{ orders, totalFetched, hasMore }` on success, the propagated fetch
failure otherwise. -/
def getAllOrders (fetch : Option String → Except ε (FetchResult α))
    (maxPagesOpt : Option Int) : Except ε (AggResult α) :=
  match (getAllOrdersRun fetch maxPagesOpt).result with
  | .error e => .error e
  | .ok (orders, hnp) => .ok ⟨orders, orders.length, hnp⟩

/-! ### Loop lemmas -/

/-- The loop performs at most `fuel` page fetches. -/
theorem fetchPages_pages_le (fetch : Option String → Except ε (FetchResult α)) :
    ∀ (fuel : Nat) (acc : List α) (cursor : Option String),
      (fetchPages fetch fuel acc cursor).pages ≤ fuel := by
  intro fuel
  induction fuel with
  | zero => intro acc cursor; simp [fetchPages]
  | succ n ih =>
    intro acc cursor
    simp only [fetchPages]
    cases fetch cursor with
    | error e => simp
    | ok r =>
      simp only
      split
      · simpa using ih _ _
      · simp

/-- On a successful run, no page was fetched exactly when `lastReported`
is `none`. -/
theorem fetchPages_lastReported_none (fetch : Option String → Except ε (FetchResult α)) :
    ∀ (fuel : Nat) (acc : List α) (cursor : Option String) (items : List α) (hm : Bool),
      (fetchPages fetch fuel acc cursor).result = .ok (items, hm) →
      ((fetchPages fetch fuel acc cursor).lastReported = none ↔
        (fetchPages fetch fuel acc cursor).pages = 0) := by
  intro fuel
  induction fuel with
  | zero => intro acc cursor items hm _; simp [fetchPages]
  | succ n _ =>
    intro acc cursor items hm hres
    simp only [fetchPages] at hres ⊢
    cases hfc : fetch cursor with
    | error e => rw [hfc] at hres; simp at hres
    | ok r =>
      rw [hfc] at hres
      simp only at hres ⊢
      split
      · simp
      · simp

/-- Characterization of `hasMore` on a successful run: it is `true`
exactly when the loop consumed all its fuel, every fetched page (if any)
reporting a further page. -/
theorem fetchPages_hasMore (fetch : Option String → Except ε (FetchResult α)) :
    ∀ (fuel : Nat) (acc : List α) (cursor : Option String) (items : List α) (hm : Bool),
      (fetchPages fetch fuel acc cursor).result = .ok (items, hm) →
      (hm = true ↔ ((fetchPages fetch fuel acc cursor).pages = fuel ∧
        (fuel = 0 ∨ (fetchPages fetch fuel acc cursor).lastReported = some true))) := by
  intro fuel
  induction fuel with
  | zero =>
    intro acc cursor items hm hres
    simp only [fetchPages] at hres ⊢
    cases hres
    simp
  | succ n ih =>
    intro acc cursor items hm hres
    simp only [fetchPages] at hres ⊢
    cases hfc : fetch cursor with
    | error e => rw [hfc] at hres; simp at hres
    | ok r =>
      rw [hfc] at hres
      simp only at hres ⊢
      split at hres
      · -- the fetched page reports a further page: recurse
        rename_i hstep
        simp only [hstep, if_true] at hres ⊢
        constructor
        · intro hmt
          have := (ih (acc ++ (processPage cursor r).1) (processPage cursor r).2.2 items hm hres).mp hmt
          refine ⟨by omega, ?_⟩
          rcases this.2 with h0 | hlast
          · -- inner loop fetched nothing: this page is the last one, it reported true
            have hln := (fetchPages_lastReported_none fetch n _ _ items hm hres).mpr
              (by rw [this.1, h0])
            simp [hln]
          · simp [hlast]
        · intro hR
          apply (ih (acc ++ (processPage cursor r).1) (processPage cursor r).2.2 items hm hres).mpr
          have hpages : (fetchPages fetch n (acc ++ (processPage cursor r).1)
              (processPage cursor r).2.2).pages = n := by omega
          refine ⟨hpages, ?_⟩
          by_cases hn : n = 0
          · exact Or.inl hn
          · right
            have hne : (fetchPages fetch n (acc ++ (processPage cursor r).1)
                (processPage cursor r).2.2).lastReported ≠ none := by
              intro hcon
              have := (fetchPages_lastReported_none fetch n _ _ items hm hres).mp hcon
              omega
            rcases hlr : (fetchPages fetch n (acc ++ (processPage cursor r).1)
                (processPage cursor r).2.2).lastReported with _ | b
            · exact absurd hlr hne
            · rcases hR with ⟨_, h0 | hsome⟩
              · omega
              · rw [hlr] at hsome
                simp at hsome
                rw [hsome]

      · -- the fetched page reports no further page: the loop stops here
        rename_i hstep
        simp only [hstep, if_false] at hres ⊢
        cases hres
        simp

/-- A run that ends in an error got that error, unchanged, from a page
fetch. -/
theorem fetchPages_error_src (fetch : Option String → Except ε (FetchResult α)) :
    ∀ (fuel : Nat) (acc : List α) (cursor : Option String) (e : ε),
      (fetchPages fetch fuel acc cursor).result = .error e →
      ∃ c, fetch c = .error e := by
  intro fuel
  induction fuel with
  | zero => intro acc cursor e hres; simp [fetchPages] at hres
  | succ n ih =>
    intro acc cursor e hres
    simp only [fetchPages] at hres
    cases hfc : fetch cursor with
    | error e2 =>
      rw [hfc] at hres
      simp only at hres
      cases hres
      exact ⟨cursor, hfc⟩
    | ok r =>
      rw [hfc] at hres
      simp only at hres
      split at hres
      · exact ih _ _ _ hres
      · simp at hres

/-! ## Cache model

The cache itself lives in the `@local/plugin-cache` package, which is not
among the sources of this repository; only its call sites are. Its state and
operations are therefore modelled from the specification (data model in
spec sections 3 and 4.1). The mutation wrappers further below
(`updateOrder`, `updateFulfillmentTracking`, `createProduct`,
`updateCustomer`) are embedded from the repository source. -/

/-- Modelled from the spec: a cache entry — `value`, absolute `expiresAt`
timestamp, and `storedAt` insertion timestamp. -/
structure CacheEntry (β : Type) where
  value : β
  expiresAt : Int
  storedAt : Int
  deriving DecidableEq

/-- Modelled from the spec: the cache store — unique-keyed entries, the
global `enabled` flag, and the hit/miss/set/invalidation counters. -/
structure CacheState (β : Type) where
  entries : List (String × CacheEntry β)
  enabled : Bool
  hits : Nat
  misses : Nat
  sets : Nat
  invalidations : Nat
  deriving DecidableEq

/-- Whether the character list `p` is an initial segment of `k`. Used for
the namespace-pattern matching of invalidation (the source passes anchored
patterns such as the regular expression `^order`). -/
def strStarts : List Char → List Char → Bool
  | [], _ => true
  | _ :: _, [] => false
  | a :: as, b :: bs => a == b && strStarts as bs

/-- A cache key matches a namespace pattern when the pattern is a textual
initial segment of the key. -/
def patMatches (pat key : String) : Bool :=
  strStarts pat.data key.data

/-- Modelled from the spec: `invalidatePattern(pattern)` removes every
entry whose key matches the pattern (namespace-prefix semantics) and adds
the number removed to the invalidation counter. -/
def invalidatePattern (pat : String) (s : CacheState β) : CacheState β :=
  { s with
    entries := s.entries.filter (fun p => !patMatches pat p.1),
    invalidations :=
      s.invalidations + (s.entries.filter (fun p => patMatches pat p.1)).length }

/-- Modelled from the spec: `getOrFetch(key, fetchFn, {ttl, bypassCache})`.
The single invocation of the fetch function is embedded as an
`Except`-value `fetchFn`; `now` is the current clock. Returns the result,
the new store state, and whether the fetch function was invoked.
If bypassed or globally disabled, the fetch always runs and the store is
untouched. Otherwise a present, unexpired entry (`now < expiresAt`, so a
zero or negative TTL is immediately stale) is a hit returning the cached
value without invoking the fetch; an absent or expired entry invokes the
fetch and, on success only, stores the value with
`expiresAt = now + ttl`. A fetch failure is propagated and never cached. -/
def getOrFetch (key : String) (fetchFn : Except ε β) (ttl : Int) (bypassCache : Bool)
    (now : Int) (s : CacheState β) : Except ε β × CacheState β × Bool :=
  if bypassCache || !s.enabled then
    (fetchFn, s, true)
  else
    match s.entries.lookup key with
    | some e =>
      if now < e.expiresAt then
        (.ok e.value, { s with hits := s.hits + 1 }, false)
      else
        getOrFetchMiss key fetchFn ttl now s
    | none => getOrFetchMiss key fetchFn ttl now s
where
  /-- The miss path: invoke the fetch; store on success, never on failure. -/
  getOrFetchMiss (key : String) (fetchFn : Except ε β) (ttl : Int) (now : Int)
      (s : CacheState β) : Except ε β × CacheState β × Bool :=
    match fetchFn with
    | .ok v =>
      (.ok v,
        { s with
          entries := (key, ⟨v, now + ttl, now⟩) :: s.entries.filter (fun p => !(p.1 == key)),
          misses := s.misses + 1,
          sets := s.sets + 1 },
        true)
    | .error e => (.error e, { s with misses := s.misses + 1 }, true)

/-- Modelled from the spec: `createCacheKey(namespace, params)` — drop
parameters whose value is absent, serialize the remaining `key=value`
pairs in a stable insertion-order-independent way, and put the namespace
in front. -/
def createCacheKey (ns : String) (params : List (String × Option String)) : String :=
  ns ++ ":" ++ String.intercalate "&"
    ((params.filterMap (fun p => p.2.map (fun v => p.1 ++ "=" ++ v))).insertionSort (· ≤ ·))

/-! ### Mutation wrappers (embedded from the repository source)

The body of each wrapper in the source is:

```
const result = await this.callTool(...);   // may throw, aborting here
cache.invalidatePattern(/^.../);
return result;
```

The remote call is embedded as an `Except`-value `tool`: a thrown error
propagates before the invalidation line runs. -/

/-- `updateOrder`: remote `update-order` call, then invalidation of the
`order` namespace. -/
def updateOrder (tool : Except ε β) (s : CacheState γ) : Except ε β × CacheState γ :=
  match tool with
  | .error e => (.error e, s)
  | .ok r => (.ok r, invalidatePattern "order" s)

/-- `updateFulfillmentTracking`: remote `update-fulfillment-tracking`
call, then invalidation of the `order` namespace. -/
def updateFulfillmentTracking (tool : Except ε β) (s : CacheState γ) :
    Except ε β × CacheState γ :=
  match tool with
  | .error e => (.error e, s)
  | .ok r => (.ok r, invalidatePattern "order" s)

/-- `createProduct`: remote `createProduct` call, then invalidation of the
`products` namespace. -/
def createProduct (tool : Except ε β) (s : CacheState γ) : Except ε β × CacheState γ :=
  match tool with
  | .error e => (.error e, s)
  | .ok r => (.ok r, invalidatePattern "products" s)

/-- `updateCustomer`: remote `update-customer` call, then invalidation of
the `customer` namespace. -/
def updateCustomer (tool : Except ε β) (s : CacheState γ) : Except ε β × CacheState γ :=
  match tool with
  | .error e => (.error e, s)
  | .ok r => (.ok r, invalidatePattern "customer" s)

/-! ### Concrete collaborators for the scenario claims -/

/-- A page fetcher whose every page reports a further page: page `n`
(cursor of length `n`) carries the single item `n` and hands out a cursor
one character longer. -/
def alwaysMoreFetcher : Option String → Except String (FetchResult Nat) :=
  fun c => .ok (.obj [(c.getD "").length] (some ⟨some true, some ((c.getD "") ++ "x")⟩))

/-- A page fetcher that reports `hasNextPage = false` on page 2: the
first page carries items `[1, 2]`, the second `[3, 4]`. -/
def twoPageFetcher : Option String → Except String (FetchResult Nat)
  | none => .ok (.obj [1, 2] (some ⟨some true, some "c1"⟩))
  | some _ => .ok (.obj [3, 4] (some ⟨some false, none⟩))

/-- A page fetcher whose first page succeeds with items `[1, 2]` and
whose second page fails. -/
def failPage2Fetcher : Option String → Except String (FetchResult Nat)
  | none => .ok (.obj [1, 2] (some ⟨some true, some "c1"⟩))
  | some _ => .error "boom"

/-- A fetcher that answers every request with a bare array of items. -/
def bareArrayFetcher : Option String → Except String (FetchResult Nat) :=
  fun _ => .ok (.array [7, 8])

/-- A fetcher that answers every request with a value of unknown shape. -/
def singleValueFetcher : Option String → Except String (FetchResult Nat) :=
  fun _ => .ok (.other 9)

/-- A fetcher that answers with an `orders` object carrying no pagination
metadata. -/
def objNoMetaFetcher : Option String → Except String (FetchResult Nat) :=
  fun _ => .ok (.obj [4] none)

/-- An empty cache store, used to instantiate the scenario claims. -/
def emptyCache : CacheState Nat :=
  ⟨[], true, 0, 0, 0, 0⟩

/-! ## Claims about the pagination aggregator -/

/-- C1: for every page-fetching function and every positive `maxPages`,
`getAllOrders` fetches at most `maxPages` pages — the final `pageCount`
(the number of page-fetch invocations) never exceeds `maxPages` — no
matter what pagination metadata the fetched pages report. Termination is
inherent: `getAllOrders` is a total function of the fetcher. -/
theorem getAllOrders_bounded_pages (fetch : Option String → Except ε (FetchResult α))
    (m : Int) (hm : 0 < m) :
    ((getAllOrdersRun fetch (some m)).pages : Int) ≤ m := by
  have h := fetchPages_pages_le fetch m.toNat [] none
  have h2 : getAllOrdersRun fetch (some m) = fetchPages fetch m.toNat [] none := rfl
  rw [h2]
  omega

/-- Witness for C1 at the always-more fetcher and `maxPages = 3`. -/
theorem getAllOrders_bounded_pages_w :
    0 < (3 : Int) ∧ ((getAllOrdersRun alwaysMoreFetcher (some 3)).pages : Int) ≤ 3 :=
  ⟨by decide, getAllOrders_bounded_pages alwaysMoreFetcher 3 (by decide)⟩

/-- C2 (counterexample to the claim as stated): at `maxPages = 0` the
loop body never runs — zero pages are fetched, so no "last fetched page"
ever "reported a further page" — yet the result carries
`hasMore = true`. -/
theorem getAllOrders_hasMore_cex :
    getAllOrders alwaysMoreFetcher (some 0) = .ok ⟨[], 0, true⟩ ∧
    (getAllOrdersRun alwaysMoreFetcher (some 0)).pages = 0 ∧
    (getAllOrdersRun alwaysMoreFetcher (some 0)).lastReported = none :=
  ⟨rfl, rfl, rfl⟩

/-- C2 (amended): for every positive `maxPages`, `hasMore` is `true`
exactly when the loop performed exactly `maxPages` page fetches and the
last fetched page reported a further page, and `false` when the source
was genuinely exhausted; and with a fetcher that always reports
`hasNextPage = true` and `maxPages = 3`, the result is exactly the three
pages of items with `hasMore = true`. -/
theorem getAllOrders_hasMore_iff {α ε : Type} :
    (∀ (fetch : Option String → Except ε (FetchResult α)) (m : Int) (r : AggResult α),
      0 < m → getAllOrders fetch (some m) = .ok r →
      (r.hasMore = true ↔ ((getAllOrdersRun fetch (some m)).pages = m.toNat ∧
        (getAllOrdersRun fetch (some m)).lastReported = some true))) ∧
    getAllOrders alwaysMoreFetcher (some 3) = .ok ⟨[0, 1, 2], 3, true⟩ := by
  constructor
  · intro fetch m r hm hok
    have hrun : getAllOrdersRun fetch (some m) = fetchPages fetch m.toNat [] none := rfl
    unfold getAllOrders at hok
    rw [hrun] at hok ⊢
    rcases hres : (fetchPages fetch m.toNat [] none).result with e | ⟨orders, hnp⟩
    · rw [hres] at hok; simp at hok
    · rw [hres] at hok
      simp only at hok
      cases hok
      have hiff := fetchPages_hasMore fetch m.toNat [] none orders hnp hres
      simp only [AggResult.hasMore]
      rw [hiff]
      have hfz : m.toNat ≠ 0 := by omega
      constructor
      · rintro ⟨hp, h0 | hl⟩
        · exact absurd h0 hfz
        · exact ⟨hp, hl⟩
      · rintro ⟨hp, hl⟩
        exact ⟨hp, Or.inr hl⟩
  · rfl

/-- Witness for the amended C2 theorem at the always-more fetcher and
`maxPages = 3`. -/
theorem getAllOrders_hasMore_iff_w :
    (⟨[0, 1, 2], 3, true⟩ : AggResult Nat).hasMore = true ↔
      ((getAllOrdersRun alwaysMoreFetcher (some 3)).pages = (3 : Int).toNat ∧
        (getAllOrdersRun alwaysMoreFetcher (some 3)).lastReported = some true) :=
  getAllOrders_hasMore_iff.1 alwaysMoreFetcher 3 ⟨[0, 1, 2], 3, true⟩ (by decide) rfl

/-- C3: with a fetcher that reports `hasNextPage = false` on page 2 and
any larger `maxPages`, `getAllOrders` stops after the second fetch and
returns exactly the items of pages 1 and 2 in page order with
`hasMore = false`. -/
theorem getAllOrders_exhaustion (m : Int) (hm : 2 ≤ m) :
    getAllOrders twoPageFetcher (some m) = .ok ⟨[1, 2, 3, 4], 4, false⟩ ∧
    (getAllOrdersRun twoPageFetcher (some m)).pages = 2 := by
  obtain ⟨k, hk⟩ : ∃ k, ((some m).getD 10).toNat = k + 2 := ⟨m.toNat - 2, by simp; omega⟩
  have hrun : getAllOrdersRun twoPageFetcher (some m) =
      fetchPages twoPageFetcher (k + 2) [] none := by
    unfold getAllOrdersRun
    rw [hk]
  rw [getAllOrders, hrun]
  simp [fetchPages, twoPageFetcher, processPage]

/-- Witness for C3 at `maxPages = 10`. -/
theorem getAllOrders_exhaustion_w :
    getAllOrders twoPageFetcher (some 10) = .ok ⟨[1, 2, 3, 4], 4, false⟩ ∧
    (getAllOrdersRun twoPageFetcher (some 10)).pages = 2 :=
  getAllOrders_exhaustion 10 (by decide)

/-- C4: a page-fetch failure anywhere inside `getAllOrders` propagates
to the caller unchanged (the resulting error is exactly an error some
fetch returned), and no partial result is produced — an `Except.error`
carries no items, so the pages accumulated before the failure are
discarded. Concretely, a fetcher failing on page 2 makes the whole
aggregation fail after two fetch invocations. -/
theorem getAllOrders_error_propagates {α ε : Type} :
    (∀ (fetch : Option String → Except ε (FetchResult α)) (mo : Option Int) (e : ε),
      getAllOrders fetch mo = .error e → ∃ c, fetch c = .error e) ∧
    getAllOrders failPage2Fetcher (some 10) = .error "boom" ∧
    (getAllOrdersRun failPage2Fetcher (some 10)).pages = 2 := by
  refine ⟨?_, rfl, rfl⟩
  intro fetch mo e hok
  unfold getAllOrders at hok
  rcases hres : (getAllOrdersRun fetch mo).result with e2 | pair
  · rw [hres] at hok
    simp only at hok
    cases hok
    exact fetchPages_error_src fetch _ _ _ _ hres
  · rw [hres] at hok
    simp at hok

/-- Witness for the general conjunct of C4 at the page-2-failing fetcher. -/
theorem getAllOrders_error_propagates_w :
    ∃ c, failPage2Fetcher c = .error "boom" :=
  getAllOrders_error_propagates.1 failPage2Fetcher (some 10) "boom" rfl

/-- C6: the aggregator tolerates every response shape and always
terminates: a bare array is one final page, an object with an `orders`
field but missing pagination metadata is one final page, and any other
value is one page holding that single unit — in each case iteration
stops after that page. (Totality of `getAllOrders` gives
"never crashes / always terminates" for every shape, including the
`obj` shape with metadata, whose page count claim C1 bounds.) -/
theorem getAllOrders_shape_tolerant {α ε : Type}
    (fetch : Option String → Except ε (FetchResult α)) (m : Int)
    (items : List α) (v : α) (l : List α) (hm : 1 ≤ m) :
    (fetch none = .ok (.array items) →
      getAllOrders fetch (some m) = .ok ⟨items, items.length, false⟩ ∧
      (getAllOrdersRun fetch (some m)).pages = 1) ∧
    (fetch none = .ok (.other v) →
      getAllOrders fetch (some m) = .ok ⟨[v], 1, false⟩ ∧
      (getAllOrdersRun fetch (some m)).pages = 1) ∧
    (fetch none = .ok (.obj l none) →
      getAllOrders fetch (some m) = .ok ⟨l, l.length, false⟩ ∧
      (getAllOrdersRun fetch (some m)).pages = 1) := by
  obtain ⟨k, hk⟩ : ∃ k, ((some m).getD 10).toNat = k + 1 := ⟨m.toNat - 1, by simp; omega⟩
  have hrun : getAllOrdersRun fetch (some m) = fetchPages fetch (k + 1) [] none := by
    unfold getAllOrdersRun
    rw [hk]
  refine ⟨fun hf => ?_, fun hf => ?_, fun hf => ?_⟩ <;>
    rw [getAllOrders, hrun] <;>
    simp [fetchPages, hf, processPage]

/-- Witness for C6 at three concrete fetchers, one per tolerated shape,
each with `maxPages = 5`. -/
theorem getAllOrders_shape_tolerant_w :
    (getAllOrders bareArrayFetcher (some 5) = .ok ⟨[7, 8], 2, false⟩ ∧
      (getAllOrdersRun bareArrayFetcher (some 5)).pages = 1) ∧
    (getAllOrders singleValueFetcher (some 5) = .ok ⟨[9], 1, false⟩ ∧
      (getAllOrdersRun singleValueFetcher (some 5)).pages = 1) ∧
    (getAllOrders objNoMetaFetcher (some 5) = .ok ⟨[4], 1, false⟩ ∧
      (getAllOrdersRun objNoMetaFetcher (some 5)).pages = 1) :=
  ⟨(getAllOrders_shape_tolerant bareArrayFetcher 5 [7, 8] 9 [4] (by decide)).1 rfl,
   (getAllOrders_shape_tolerant singleValueFetcher 5 [7, 8] 9 [4] (by decide)).2.1 rfl,
   (getAllOrders_shape_tolerant objNoMetaFetcher 5 [7, 8] 9 [4] (by decide)).2.2 rfl⟩

/-- C10: with `maxPages ≤ 0` the loop guard fails immediately: no page is
fetched and the result is `{orders := [], totalFetched := 0,
hasMore := true}` — `hasMore` is `true` although the source was never
consulted. -/
theorem getAllOrders_nonpositive_maxPages {α ε : Type}
    (fetch : Option String → Except ε (FetchResult α)) (m : Int) (hm : m ≤ 0) :
    getAllOrders fetch (some m) = .ok ⟨[], 0, true⟩ ∧
    (getAllOrdersRun fetch (some m)).pages = 0 := by
  have hk : ((some m).getD 10).toNat = 0 := by simp; omega
  have hrun : getAllOrdersRun fetch (some m) = fetchPages fetch 0 [] none := by
    unfold getAllOrdersRun
    rw [hk]
  rw [getAllOrders, hrun]
  simp [fetchPages]

/-- Witness for C10 at `maxPages = 0`. -/
theorem getAllOrders_nonpositive_maxPages_w :
    getAllOrders twoPageFetcher (some 0) = .ok ⟨[], 0, true⟩ ∧
    (getAllOrdersRun twoPageFetcher (some 0)).pages = 0 :=
  getAllOrders_nonpositive_maxPages twoPageFetcher 0 (by decide)

/-! ## Claims about the cache and the mutation wrappers -/

/-- Looking a key up in an association list filtered by a predicate on
keys: entries with a matching key survive the filter in order, so the
lookup is unchanged when the key satisfies the predicate and fails when
it does not. -/
theorem lookup_filter_key {β : Type} (k : String) (q : String → Bool) :
    ∀ l : List (String × CacheEntry β),
      (l.filter (fun p => q p.1)).lookup k = if q k then l.lookup k else none := by
  intro l
  induction l with
  | nil => simp [List.lookup]
  | cons p t ih =>
    obtain ⟨a, b⟩ := p
    cases hka : k == a with
    | true =>
      have hk : k = a := by simpa using hka
      subst hk
      cases hq : q k with
      | true => simp [List.filter_cons, hq, List.lookup, hka]
      | false => simp [List.filter_cons, hq, List.lookup, ih, hka]
    | false =>
      cases hq : q a with
      | true => simp [List.filter_cons, hq, List.lookup, hka, ih]
      | false => simp [List.filter_cons, hq, List.lookup, hka, ih]

/-- If a key extends `a :: as` and `b` differs from `a`, the key cannot
extend `b :: bs`. -/
theorem strStarts_ne_head {a b : Char} {as bs l : List Char} (hne : b ≠ a)
    (h : strStarts (a :: as) l = true) : strStarts (b :: bs) l = false := by
  cases l with
  | nil => simp [strStarts] at h
  | cons c cs =>
    simp only [strStarts, Bool.and_eq_true, beq_iff_eq] at h
    obtain ⟨rfl, _⟩ := h
    have hb : (b == a) = false := by
      simp [hne]
    simp [strStarts, hb]

/-- A key in the `product` namespace is not in the `order` namespace. -/
theorem order_product_disjoint (k : String) (h : patMatches "product" k = true) :
    patMatches "order" k = false := by
  have hp : "product".data = 'p' :: "roduct".data := rfl
  have ho : "order".data = 'o' :: "rder".data := rfl
  rw [patMatches, hp] at h
  rw [patMatches, ho]
  exact strStarts_ne_head (by decide) h

/-- A key in the `customer` namespace is not in the `order` namespace. -/
theorem order_customer_disjoint (k : String) (h : patMatches "customer" k = true) :
    patMatches "order" k = false := by
  have hp : "customer".data = 'c' :: "ustomer".data := rfl
  have ho : "order".data = 'o' :: "rder".data := rfl
  rw [patMatches, hp] at h
  rw [patMatches, ho]
  exact strStarts_ne_head (by decide) h

/-- After invalidating a pattern, a key matching the pattern is gone. -/
theorem invalidatePattern_lookup_matched {β : Type} (pat : String) (s : CacheState β)
    (k : String) (h : patMatches pat k = true) :
    (invalidatePattern pat s).entries.lookup k = none := by
  have := lookup_filter_key (β := β) k (fun x => !patMatches pat x) s.entries
  simpa [invalidatePattern, h] using this

/-- After invalidating a pattern, a key not matching the pattern resolves
exactly as before. -/
theorem invalidatePattern_lookup_unmatched {β : Type} (pat : String) (s : CacheState β)
    (k : String) (h : patMatches pat k = false) :
    (invalidatePattern pat s).entries.lookup k = s.entries.lookup k := by
  have := lookup_filter_key (β := β) k (fun x => !patMatches pat x) s.entries
  simpa [invalidatePattern, h] using this

/-- C5: every mutation wrapper (`updateOrder`,
`updateFulfillmentTracking`, `createProduct`, `updateCustomer`)
invalidates its cache namespace only after the remote call succeeds: on a
failed remote call the failure propagates and the cache state is left
exactly unchanged; on a successful call the state is exactly the one the
namespace invalidation produces. -/
theorem mutations_invalidate_after_success {β γ ε : Type}
    (tool : Except ε β) (s : CacheState γ) :
    (∀ e, tool = .error e →
      updateOrder tool s = (.error e, s) ∧
      updateFulfillmentTracking tool s = (.error e, s) ∧
      createProduct tool s = (.error e, s) ∧
      updateCustomer tool s = (.error e, s)) ∧
    (∀ r, tool = .ok r →
      updateOrder tool s = (.ok r, invalidatePattern "order" s) ∧
      updateFulfillmentTracking tool s = (.ok r, invalidatePattern "order" s) ∧
      createProduct tool s = (.ok r, invalidatePattern "products" s) ∧
      updateCustomer tool s = (.ok r, invalidatePattern "customer" s)) := by
  constructor
  · rintro e rfl
    exact ⟨rfl, rfl, rfl, rfl⟩
  · rintro r rfl
    exact ⟨rfl, rfl, rfl, rfl⟩

/-- Witness for C5: a failing and a succeeding remote call against the
empty store. -/
theorem mutations_invalidate_after_success_w :
    (updateOrder (Except.error "fail") emptyCache =
      ((Except.error "fail" : Except String Nat), emptyCache)) ∧
    (updateOrder (Except.ok 5) emptyCache =
      ((Except.ok 5 : Except String Nat), invalidatePattern "order" emptyCache)) :=
  ⟨((mutations_invalidate_after_success (Except.error "fail") emptyCache).1 "fail" rfl).1,
   ((mutations_invalidate_after_success (Except.ok 5) emptyCache).2 5 rfl).1⟩

/-- C7: read-through correctness. Starting from an enabled store with no
entry for `k`, a `getOrFetch` whose fetch succeeds with `v` returns `v`
and invokes the fetch; a second `getOrFetch` on the same key before the
TTL has elapsed, with no intervening invalidation and any fetch function
at all, returns the cached `v` without invoking its fetch — so across the
two calls the remote tool is invoked exactly once. -/
theorem getOrFetch_read_through {β ε : Type} (s : CacheState β) (k : String) (v : β)
    (ttl now now2 : Int) (g : Except ε β)
    (henb : s.enabled = true) (habs : s.entries.lookup k = none)
    (hfresh : now2 < now + ttl) :
    (getOrFetch (ε := ε) k (Except.ok v) ttl false now s).1 = .ok v ∧
    (getOrFetch (ε := ε) k (Except.ok v) ttl false now s).2.2 = true ∧
    (getOrFetch k g ttl false now2
      ((getOrFetch (ε := ε) k (Except.ok v) ttl false now s).2.1)).1 = .ok v ∧
    (getOrFetch k g ttl false now2
      ((getOrFetch (ε := ε) k (Except.ok v) ttl false now s).2.1)).2.2 = false := by
  have h1 : getOrFetch (ε := ε) k (Except.ok v) ttl false now s =
      ((.ok v : Except ε β),
        { s with
          entries := (k, ⟨v, now + ttl, now⟩) :: s.entries.filter (fun p => !(p.1 == k)),
          misses := s.misses + 1,
          sets := s.sets + 1 },
        true) := by
    simp [getOrFetch, henb, habs, getOrFetch.getOrFetchMiss]
  rw [h1]
  refine ⟨rfl, rfl, ?_, ?_⟩ <;>
    simp [getOrFetch, henb, List.lookup, hfresh]

/-- Witness for C7: two `getOrFetch "orders:status=open"` calls 100
time-units apart with TTL 300 against the empty store; the second one
carries a fetch that would return 8, yet the cached 7 is returned and the
fetch is not invoked. -/
theorem getOrFetch_read_through_w :
    (getOrFetch (ε := String) "orders:status=open" (Except.ok 7) 300 false 0
      emptyCache).1 = .ok 7 ∧
    (getOrFetch (ε := String) "orders:status=open" (Except.ok 7) 300 false 0
      emptyCache).2.2 = true ∧
    (getOrFetch (ε := String) "orders:status=open" (Except.ok 8) 300 false 100
      ((getOrFetch (ε := String) "orders:status=open" (Except.ok 7) 300 false 0
        emptyCache).2.1)).1 = .ok 7 ∧
    (getOrFetch (ε := String) "orders:status=open" (Except.ok 8) 300 false 100
      ((getOrFetch (ε := String) "orders:status=open" (Except.ok 7) 300 false 0
        emptyCache).2.1)).2.2 = false :=
  getOrFetch_read_through emptyCache "orders:status=open" 7 300 0 100
    (Except.ok 8) rfl rfl (by decide)

/-- C8: `createCacheKey` is insertion-order independent — permuted
parameter mappings yield the identical key — absent-valued parameters are
omitted from the key, and the namespace is a textual prefix of the
resulting key. -/
theorem createCacheKey_deterministic (ns k : String)
    (p1 p2 ps : List (String × Option String)) (hperm : p1.Perm p2) :
    createCacheKey ns p1 = createCacheKey ns p2 ∧
    createCacheKey ns ((k, none) :: ps) = createCacheKey ns ps ∧
    ∃ rest, createCacheKey ns p1 = ns ++ rest := by
  refine ⟨?_, ?_, ?_⟩
  · unfold createCacheKey
    have hp := hperm.filterMap (fun p => p.2.map (fun v => p.1 ++ "=" ++ v))
    have h1 := List.perm_insertionSort (α := String) (· ≤ ·)
      (p1.filterMap (fun p => p.2.map (fun v => p.1 ++ "=" ++ v)))
    have h2 := List.perm_insertionSort (α := String) (· ≤ ·)
      (p2.filterMap (fun p => p.2.map (fun v => p.1 ++ "=" ++ v)))
    have hs1 := List.sorted_insertionSort (α := String) (· ≤ ·)
      (p1.filterMap (fun p => p.2.map (fun v => p.1 ++ "=" ++ v)))
    have hs2 := List.sorted_insertionSort (α := String) (· ≤ ·)
      (p2.filterMap (fun p => p.2.map (fun v => p.1 ++ "=" ++ v)))
    rw [List.eq_of_perm_of_sorted (h1.trans (hp.trans h2.symm)) hs1 hs2]
  · unfold createCacheKey
    simp
  · exact ⟨_, (String.append_assoc ns ":" _)⟩

/-- Witness for C8 at a two-parameter mapping and its reversal. -/
theorem createCacheKey_deterministic_w :
    createCacheKey "orders" [("status", some "open"), ("limit", some "50")] =
      createCacheKey "orders" [("limit", some "50"), ("status", some "open")] ∧
    createCacheKey "orders" [("query", none)] = createCacheKey "orders" [] ∧
    ∃ rest, createCacheKey "orders" [("status", some "open"), ("limit", some "50")] =
      "orders" ++ rest :=
  createCacheKey_deterministic "orders" "query"
    [("status", some "open"), ("limit", some "50")]
    [("limit", some "50"), ("status", some "open")] [] (by decide)

/-- C9: invalidating the `order` pattern removes every entry whose key
begins with `order` and leaves every `product`- and `customer`-prefixed
entry untouched; consequently, after a successful `updateOrder` (whose
post-state is exactly the `order`-pattern invalidation) a `getOrFetch`
on `order:id=42` finds no cached value and must invoke its fetch
function. -/
theorem invalidatePattern_scope {β γ ε2 ε : Type} (s : CacheState β) (k : String)
    (r : γ) (g : Except ε β) (ttl now : Int) :
    (patMatches "order" k = true →
      (invalidatePattern "order" s).entries.lookup k = none) ∧
    ((patMatches "product" k = true ∨ patMatches "customer" k = true) →
      (invalidatePattern "order" s).entries.lookup k = s.entries.lookup k) ∧
    (getOrFetch "order:id=42" g ttl false now
      ((updateOrder (Except.ok r : Except ε2 γ) s).2)).2.2 = true := by
  refine ⟨fun h => invalidatePattern_lookup_matched _ _ _ h, fun h => ?_, ?_⟩
  · rcases h with h | h
    · exact invalidatePattern_lookup_unmatched _ _ _ (order_product_disjoint k h)
    · exact invalidatePattern_lookup_unmatched _ _ _ (order_customer_disjoint k h)
  · have hs2 : (updateOrder (Except.ok r : Except ε2 γ) s).2 = invalidatePattern "order" s :=
      rfl
    rw [hs2]
    have hnone : (invalidatePattern "order" s).entries.lookup "order:id=42" = none :=
      invalidatePattern_lookup_matched _ _ _ (by decide)
    cases henb : (invalidatePattern "order" s).enabled
    · simp [getOrFetch, henb]
    · cases g <;> simp [getOrFetch, henb, hnone, getOrFetch.getOrFetchMiss]

/-- Witness for C9 at a concrete two-entry store holding an `order` and a
`product` entry. -/
theorem invalidatePattern_scope_w :
    (patMatches "order" "order:id=42" = true →
      (invalidatePattern "order"
        (⟨[("order:id=42", ⟨1, 10, 0⟩), ("product:id=7", ⟨2, 10, 0⟩)], true, 0, 0, 0, 0⟩ :
          CacheState Nat)).entries.lookup "order:id=42" = none) ∧
    ((patMatches "product" "order:id=42" = true ∨
        patMatches "customer" "order:id=42" = true) →
      (invalidatePattern "order"
        (⟨[("order:id=42", ⟨1, 10, 0⟩), ("product:id=7", ⟨2, 10, 0⟩)], true, 0, 0, 0, 0⟩ :
          CacheState Nat)).entries.lookup "order:id=42" =
        (⟨[("order:id=42", ⟨1, 10, 0⟩), ("product:id=7", ⟨2, 10, 0⟩)], true, 0, 0, 0, 0⟩ :
          CacheState Nat).entries.lookup "order:id=42") ∧
    (getOrFetch "order:id=42" (Except.ok 3 : Except String Nat) 300 false 50
      ((updateOrder (Except.ok 9 : Except String Nat)
        (⟨[("order:id=42", ⟨1, 10, 0⟩), ("product:id=7", ⟨2, 10, 0⟩)], true, 0, 0, 0, 0⟩ :
          CacheState Nat)).2)).2.2 = true :=
  invalidatePattern_scope
    (⟨[("order:id=42", ⟨1, 10, 0⟩), ("product:id=7", ⟨2, 10, 0⟩)], true, 0, 0, 0, 0⟩ :
      CacheState Nat)
    "order:id=42" 9 (Except.ok 3) 300 50

end ShopifyPlugin
